import Mathlib

/- Verification development for the rhoai-ops-graph repository.

The repository is Python; the definitions below are a shallow embedding of
its string- and shape-level logic: Python strings become lists of
characters, Python values that flow through the tool-result normalizer
become an inductive type of JSON-like values, and raised exceptions become
an explicit Except layer.  Each definition is translated from the named
source file and function. -/

/-- A Python string, embedded as a list of characters. -/
abbrev Str := List Char

/-- The double-quote character. -/
def dqc : Char := Char.ofNat 34

/-- The single-quote character. -/
def sqc : Char := Char.ofNat 39

/-- The left-brace character. -/
def lbc : Char := Char.ofNat 123

/-- The right-brace character. -/
def rbc : Char := Char.ofNat 125

/-- Substring containment, embedding the Python operator in on strings. -/
def containsSub (pat : Str) : Str → Bool
  | [] => pat.isEmpty
  | c :: rest => pat.isPrefixOf (c :: rest) || containsSub pat rest

/-- Embeds the Python str.lower method (exact on ASCII, which is the only
range the repository uses for tool and server names). -/
def pyToLower (s : Str) : Str := s.map Char.toLower

/-- Embeds the Python expression server_id.replace(Chr 45, Chr 95), the
dash-to-underscore rewrite in src/agents/interactive_agent.py. -/
def dashToUnderscore (s : Str) : Str := s.map fun c => if c = '-' then '_' else c

/-- The characters stripped by the Python str.strip method (ASCII range). -/
def isPySpace (c : Char) : Bool :=
  c = ' ' || c = '\t' || c = '\n' || c = '\r' || c = Char.ofNat 11 || c = Char.ofNat 12

/-- Embeds the Python str.strip method with no arguments. -/
def pyStrip (s : Str) : Str :=
  ((s.dropWhile isPySpace).reverse.dropWhile isPySpace).reverse

/-- Embeds the Python call s.split(sep, 1): the part before the first
occurrence of sep, and the part after it when sep occurs at all. -/
def pysplit1 (sep : Str) : Str → Str × Option Str
  | [] => ([], Option.none)
  | c :: rest =>
      if sep.isPrefixOf (c :: rest) then ([], some ((c :: rest).drop sep.length))
      else
        let r := pysplit1 sep rest
        (c :: r.1, r.2)

/-- Worker for replaceAll.  The fuel argument makes the recursion
structural so the definition evaluates by reduction; every step consumes at
least one character when the pattern is non-empty, so fuel equal to the
length of the scanned string is always enough. -/
def replaceAllAux (pat rep : Str) : Nat → Str → Str
  | _, [] => []
  | 0, s => s
  | fuel + 1, c :: rest =>
      if pat.isPrefixOf (c :: rest) then
        rep ++ replaceAllAux pat rep fuel ((c :: rest).drop pat.length)
      else
        c :: replaceAllAux pat rep fuel rest

/-- Embeds the Python call s.replace(pat, rep): every occurrence of pat is
rewritten, scanning left to right.  The repository only calls it with a
non-empty pattern; an empty pattern is passed through unchanged. -/
def replaceAll (pat rep s : Str) : Str :=
  match pat with
  | [] => s
  | _ :: _ => replaceAllAux pat rep s.length s

/-- Embeds the Python join of xs with separator sep. -/
def joinSep (sep : Str) (xs : List Str) : Str :=
  match xs with
  | [] => []
  | x :: rest => rest.foldl (fun acc y => acc ++ sep ++ y) x

/-- A Python value as it appears in tool-result payloads: strings, numbers,
booleans, None, lists, string-keyed dicts, and opaque non-JSON-serializable
objects carrying only their type name. -/
inductive PyVal where
  | str (s : Str)
  | int (n : Int)
  | bool (b : Bool)
  | none
  | list (items : List PyVal)
  | dict (entries : List (Str × PyVal))
  | obj (typeName : Str)

/-- Key lookup in an embedded Python dict (first matching entry). -/
def dictLookup (entries : List (Str × PyVal)) (key : Str) : Option PyVal :=
  match entries with
  | [] => Option.none
  | (k, v) :: rest => if k = key then some v else dictLookup rest key

/-- A lowercase hexadecimal digit. -/
def hexDigit (n : Nat) : Char :=
  if n < 10 then Char.ofNat (48 + n) else Char.ofNat (87 + n)

/-- Four lowercase hexadecimal digits, as used by JSON unicode escapes. -/
def hex4 (n : Nat) : Str :=
  [hexDigit (n / 4096 % 16), hexDigit (n / 256 % 16), hexDigit (n / 16 % 16), hexDigit (n % 16)]

/-- Character escaping of the Python json.dumps encoder with its default
ensure-ascii behaviour. -/
def jsonEscapeChar (c : Char) : Str :=
  if c = dqc then ['\\', dqc]
  else if c = '\\' then ['\\', '\\']
  else if c = '\n' then ['\\', 'n']
  else if c = '\t' then ['\\', 't']
  else if c = '\r' then ['\\', 'r']
  else if c = Char.ofNat 8 then ['\\', 'b']
  else if c = Char.ofNat 12 then ['\\', 'f']
  else if c.toNat < 32 then '\\' :: 'u' :: hex4 c.toNat
  else if c.toNat < 127 then [c]
  else if c.toNat < 65536 then '\\' :: 'u' :: hex4 c.toNat
  else
    ('\\' :: 'u' :: hex4 (55296 + (c.toNat - 65536) / 1024))
      ++ ('\\' :: 'u' :: hex4 (56320 + (c.toNat - 65536) % 1024))

/-- A JSON string literal for s. -/
def jsonQuote (s : Str) : Str :=
  dqc :: ((s.map jsonEscapeChar).flatten ++ [dqc])

/-- Decimal rendering of an integer, shared by json.dumps and repr. -/
def intStr (n : Int) : Str := (toString n).toList

/-- The indentation produced by json.dumps with indent set to 2. -/
def indentN (lvl : Nat) : Str := List.replicate (2 * lvl) ' '

mutual

/-- Whether the Python json.dumps encoder accepts the value (it raises
TypeError on anything outside str, int, bool, None, list, dict). -/
def jsonSerializable : PyVal → Bool
  | .str _ => true
  | .int _ => true
  | .bool _ => true
  | .none => true
  | .list items => jsonSerializableList items
  | .dict entries => jsonSerializableEntries entries
  | .obj _ => false

/-- Serializability of every element of a list. -/
def jsonSerializableList : List PyVal → Bool
  | [] => true
  | v :: vs => jsonSerializable v && jsonSerializableList vs

/-- Serializability of every value of a dict. -/
def jsonSerializableEntries : List (Str × PyVal) → Bool
  | [] => true
  | (_, v) :: vs => jsonSerializable v && jsonSerializableEntries vs

end

mutual

/-- The text produced by the Python call json.dumps(v, indent=2) at a given
indentation level, for serializable values. -/
def jsonRender : PyVal → Nat → Str
  | .str s, _ => jsonQuote s
  | .int n, _ => intStr n
  | .bool b, _ => if b then ("true".toList) else ("false".toList)
  | .none, _ => ("null".toList)
  | .list [], _ => ['[', ']']
  | .list (v :: vs), lvl =>
      ('[' :: '\n' :: (indentN (lvl + 1) ++ jsonRender v (lvl + 1)))
        ++ jsonRenderRest vs (lvl + 1) ++ ('\n' :: (indentN lvl ++ [']']))
  | .dict [], _ => [lbc, rbc]
  | .dict (e :: es), lvl =>
      (lbc :: '\n' :: (indentN (lvl + 1) ++ (jsonQuote e.1 ++ (':' :: ' ' :: jsonRender e.2 (lvl + 1)))))
        ++ jsonRenderEntriesRest es (lvl + 1) ++ ('\n' :: (indentN lvl ++ [rbc]))
  | .obj _, _ => []

/-- Rendering of the remaining elements of a JSON array. -/
def jsonRenderRest : List PyVal → Nat → Str
  | [], _ => []
  | v :: vs, lvl =>
      (',' :: '\n' :: (indentN lvl ++ jsonRender v lvl)) ++ jsonRenderRest vs lvl

/-- Rendering of the remaining entries of a JSON object. -/
def jsonRenderEntriesRest : List (Str × PyVal) → Nat → Str
  | [], _ => []
  | e :: es, lvl =>
      (',' :: '\n' :: (indentN lvl ++ (jsonQuote e.1 ++ (':' :: ' ' :: jsonRender e.2 lvl))))
        ++ jsonRenderEntriesRest es lvl

end

/-- Embeds the Python call json.dumps(v, indent=2): the rendered text when
the value is serializable, and nothing when the call raises TypeError. -/
def jsonDumps (v : PyVal) : Option Str :=
  if jsonSerializable v then some (jsonRender v 0) else Option.none

/-- Escaping used by the Python repr of a string quoted with q. -/
def pyEscapeChar (q : Char) (c : Char) : Str :=
  if c = '\\' then ['\\', '\\']
  else if c = q then ['\\', q]
  else if c = '\n' then ['\\', 'n']
  else if c = '\r' then ['\\', 'r']
  else if c = '\t' then ['\\', 't']
  else if c.toNat < 32 || c.toNat = 127 then ['\\', 'x', hexDigit (c.toNat / 16), hexDigit (c.toNat % 16)]
  else [c]

/-- The Python repr of a string: single-quoted, switching to double quotes
when the string holds a single quote but no double quote (exact on the
ASCII printable range the repository handles). -/
def pyReprStr (s : Str) : Str :=
  let q := if s.contains sqc && !s.contains dqc then dqc else sqc
  q :: ((s.map (pyEscapeChar q)).flatten ++ [q])

mutual

/-- The Python repr of an embedded value; an opaque object renders as its
type name (the memory address Python would print is elided). -/
def pyRepr : PyVal → Str
  | .str s => pyReprStr s
  | .int n => intStr n
  | .bool b => if b then ("True".toList) else ("False".toList)
  | .none => ("None".toList)
  | .list items => '[' :: (pyReprJoin items ++ [']'])
  | .dict entries => lbc :: (pyReprEntriesJoin entries ++ [rbc])
  | .obj t => '<' :: (t ++ (" object>".toList))

/-- Comma-joined reprs of list elements. -/
def pyReprJoin : List PyVal → Str
  | [] => []
  | [v] => pyRepr v
  | v :: vs => pyRepr v ++ (',' :: ' ' :: pyReprJoin vs)

/-- Comma-joined reprs of dict entries. -/
def pyReprEntriesJoin : List (Str × PyVal) → Str
  | [] => []
  | [e] => pyReprStr e.1 ++ (':' :: ' ' :: pyRepr e.2)
  | e :: es => (pyReprStr e.1 ++ (':' :: ' ' :: pyRepr e.2)) ++ (',' :: ' ' :: pyReprEntriesJoin es)

end

/-- Embeds the Python builtin str applied to an embedded value. -/
def pyStr (v : PyVal) : Str :=
  match v with
  | .str s => s
  | v => pyRepr v

/-- The set INTERRUPT_EXCEPTION_NAMES of src/agents/helpers/middleware.py:
exception type names that must propagate for human-in-the-loop approval. -/
def INTERRUPT_EXCEPTION_NAMES : List Str :=
  [("GraphInterrupt".toList), ("NodeInterrupt".toList), ("Interrupt".toList)]

/-- A raised Python exception as the middleware observes it: the type name,
the message, and whether the object is an instance of the Interrupt type. -/
structure PyExc where
  kind : Str
  msg : Str
  interruptInstance : Bool
deriving DecidableEq

/-- The list comprehension of src/agents/helpers/middleware.py line 36:
the text values of the items that are dicts exposing a text key, in
original order. -/
def mcpTextItems (content : List PyVal) : List PyVal :=
  content.filterMap fun item =>
    match item with
    | .dict entries => dictLookup entries ("text".toList)
    | _ => Option.none

/-- The guard isinstance(item, dict) and text in item from
src/agents/helpers/middleware.py. -/
def isTextRecord (v : PyVal) : Bool :=
  match v with
  | .dict entries => (dictLookup entries ("text".toList)).isSome
  | _ => false

/-- The TypeError raised by json.dumps on a non-serializable value (the
exact message Python builds is irrelevant to every claim; a fixed text
stands in for it). -/
def jsonNotSerializableExc : PyExc :=
  { kind := ("TypeError".toList), msg := ("Object is not JSON serializable".toList),
    interruptInstance := false }

/-- Embeds normalize_mcp_content of src/agents/helpers/middleware.py.
A non-list or empty-list input passes through; a list whose first item is
not a text record is JSON-encoded, falling back to str on TypeError or
ValueError; otherwise the text values are collected: one text value is
returned as is, several are JSON-encoded (that json.dumps call is not
guarded, so its TypeError propagates as an error). -/
def normalize_mcp_content (content : PyVal) : Except PyExc PyVal :=
  match content with
  | .list [] => Except.ok (.list [])
  | .list (first :: rest) =>
      if isTextRecord first then
        match mcpTextItems (first :: rest) with
        | [] => Except.ok (.str (pyStr (.list (first :: rest))))
        | [t] => Except.ok t
        | ts =>
            match jsonDumps (.list ts) with
            | some s => Except.ok (.str s)
            | Option.none => Except.error jsonNotSerializableExc
      else
        match jsonDumps (.list (first :: rest)) with
        | some s => Except.ok (.str s)
        | Option.none => Except.ok (.str (pyStr (.list (first :: rest))))
  | other => Except.ok other

/-- The tool_call dict of a request: the call id (always present) and the
tool name, read with dict.get so it may be absent. -/
structure ToolCall where
  id : Str
  name : Option Str
deriving DecidableEq

/-- The request object handed to the middleware. -/
structure ToolRequest where
  tool_call : ToolCall
deriving DecidableEq

/-- A ToolMessage: a content payload and the id of the call it answers. -/
structure ToolMsg where
  content : PyVal
  tool_call_id : Str

/-- The f-string of src/agents/helpers/middleware.py line 82. -/
def error_message_for (toolName kind msg : Str) : Str :=
  ("ERROR in tool ".toList) ++ ([sqc] ++ toolName ++ [sqc])
    ++ ((": ".toList) ++ kind ++ ((": ".toList) ++ msg))

/-- The except branch of handle_tool_errors in
src/agents/helpers/middleware.py: interrupt-named exceptions and Interrupt
instances are re-raised; anything else is logged and converted to a
ToolMessage addressed to the original call id.  The second component
collects the strings passed to logger.error. -/
def wrapException (request : ToolRequest) (e : PyExc) :
    Except PyExc ToolMsg × List Str :=
  if e.kind ∈ INTERRUPT_EXCEPTION_NAMES then (Except.error e, [])
  else if e.interruptInstance then (Except.error e, [])
  else
    let tool_name := request.tool_call.name.getD ("unknown".toList)
    let error_msg := error_message_for tool_name e.kind e.msg
    (Except.ok { content := .str error_msg, tool_call_id := request.tool_call.id }, [error_msg])

/-- Embeds handle_tool_errors of src/agents/helpers/middleware.py.  The
awaited handler call is passed in as its outcome: either a result message
or a raised exception.  On success a list-shaped content field is
normalized inside the same try block, so a TypeError raised by the
normalizer is caught by the same except branch. -/
def handle_tool_errors (request : ToolRequest) (outcome : Except PyExc ToolMsg) :
    Except PyExc ToolMsg × List Str :=
  match outcome with
  | Except.error e => wrapException request e
  | Except.ok result =>
      match result.content with
      | .list items =>
          match normalize_mcp_content (.list items) with
          | Except.ok c => (Except.ok { result with content := c }, [])
          | Except.error e => wrapException request e
      | _ => (Except.ok result, [])

/-- First-match lookup in a string-keyed association list, the embedding of
a Python dict read. -/
def assocLookup {α : Type} (entries : List (Str × α)) (key : Str) : Option α :=
  match entries with
  | [] => Option.none
  | (k, v) :: rest => if k = key then some v else assocLookup rest key

/-- The per-tool approval dict handed to build_interrupt_on_config; both
keys are read with dict.get, so either may be absent. -/
structure ApprovalToolDict where
  allowed_decisions : Option (List Str)
  description : Option Str

/-- One entry of the interrupt_on dict built for HumanInTheLoopMiddleware. -/
structure InterruptToolCfg where
  allowed_decisions : List Str
  description : Str
deriving DecidableEq

/-- Embeds build_interrupt_on_config of src/agents/helpers/subagents.py. -/
def build_interrupt_on_config (approval_tools : List (Str × ApprovalToolDict)) :
    List (Str × InterruptToolCfg) :=
  approval_tools.map fun p =>
    (p.1,
      { allowed_decisions := p.2.allowed_decisions.getD [("approve".toList), ("reject".toList)],
        description := p.2.description.getD (p.1 ++ (" requires approval".toList)) })

/-- A middleware of the sub-agent stack built by create_subagent. -/
inductive SubagentMiddleware where
  | humanInTheLoop (interrupt_on : List (Str × InterruptToolCfg))
  | toolErrorHandler

/-- Embeds the middleware stack built by create_subagent in
src/agents/helpers/subagents.py: a HumanInTheLoopMiddleware from the
approval table when that table is non-empty (a missing or empty table is
falsy in Python and adds no gate), then the error handler. -/
def create_subagent_middleware (approval_tools : List (Str × ApprovalToolDict)) :
    List SubagentMiddleware :=
  (if approval_tools.isEmpty then []
   else [SubagentMiddleware.humanInTheLoop (build_interrupt_on_config approval_tools)])
    ++ [SubagentMiddleware.toolErrorHandler]

/-- The ToolApprovalConfig dataclass of src/agents/helpers/config.py. -/
structure ToolApprovalConfig where
  allowed_decisions : List Str
  description : Str

/-- The ApprovalConfig dataclass of src/agents/helpers/config.py. -/
structure ApprovalConfig where
  tools : List (Str × ToolApprovalConfig)

/-- The ConnectionConfig dataclass of src/agents/helpers/config.py. -/
structure ConnectionConfig where
  url : Str
  transport : Str

/-- The AgentConfig dataclass of src/agents/helpers/config.py. -/
structure AgentConfig where
  name : Str
  tool_name : Str
  tool_description : Str
  prompt : Str

/-- The MCPServerConfig dataclass of src/agents/helpers/config.py. -/
structure MCPServerConfig where
  server_id : Str
  connection : ConnectionConfig
  agent : AgentConfig
  approval : ApprovalConfig

/-- The Config dataclass of src/agents/helpers/config.py. -/
structure Config where
  supervisor_prompt : Str
  servers : List (Str × MCPServerConfig)

/-- Embeds Config.get_approval_tools_for_server of
src/agents/helpers/config.py: the per-tool approval dicts of one server,
each built with both keys present. -/
def Config.get_approval_tools_for_server (c : Config) (server_id : Str) :
    List (Str × ApprovalToolDict) :=
  match assocLookup c.servers server_id with
  | Option.none => []
  | some server =>
      server.approval.tools.map fun p =>
        (p.1, { allowed_decisions := some p.2.allowed_decisions,
                description := some p.2.description })

/-- Embeds the Python dict.update call: existing keys keep their position
and take the new value, new keys are appended in order. -/
def dictUpdate {α : Type} (base upd : List (Str × α)) : List (Str × α) :=
  (base.map fun p =>
    match assocLookup upd p.1 with
    | some v => (p.1, v)
    | Option.none => p)
    ++ upd.filter fun q => (assocLookup base q.1).isNone

/-- Embeds Config.get_all_approval_tools of src/agents/helpers/config.py. -/
def Config.get_all_approval_tools (c : Config) : List (Str × ApprovalToolDict) :=
  c.servers.foldl (fun acc p => dictUpdate acc (c.get_approval_tools_for_server p.1)) []

/-- The attribute names the Config dataclass of src/agents/helpers/config.py
defines: its two fields and its three methods.  A dataclass namespace is
static, so attribute lookup on any Config value resolves against exactly
this list. -/
def configAttributeNames : List Str :=
  [("supervisor_prompt".toList), ("servers".toList), ("get_mcp_client_config".toList),
   ("get_approval_tools_for_server".toList), ("get_all_approval_tools".toList)]

/-- Python attribute resolution on a Config value: an unknown attribute
name raises AttributeError. -/
def configGetAttr (name : Str) : Except Str Str :=
  if name ∈ configAttributeNames then Except.ok name
  else Except.error ("AttributeError".toList)

/-- Embeds SupervisorAgent._init_agent of src/agents/interactive_agent.py
up to its first failing step: after building the sub-agent tools it
evaluates self.config.get_approval_tools(), and attribute resolution
happens before any call can, so the whole method raises when the name is
missing from the Config namespace; the remaining steps are modelled as
succeeding. -/
def supervisor_init_agent (_c : Config) : Except Str Unit :=
  match configGetAttr ("get_approval_tools".toList) with
  | Except.error e => Except.error e
  | Except.ok _ => Except.ok ()

/-- The first keyword table of load_mcp_tools in
src/agents/interactive_agent.py, routed to the cluster-monitor group. -/
def CLUSTER_KEYWORDS : List Str :=
  [("cluster".toList), ("hive".toList), ("owner".toList)]

/-- The second keyword table of load_mcp_tools, routed to the jenkins
group. -/
def JENKINS_KEYWORDS : List Str :=
  [("job".toList), ("build".toList), ("jenkins".toList), ("test_matrix".toList)]

/-- Embeds the per-tool assignment logic of load_mcp_tools in
src/agents/interactive_agent.py: first a prefix match of the lowercased
tool name against each configured server id (dashes rewritten to
underscores) in declaration order, then the two fixed keyword tables whose
target groups are the literal dict keys cluster-monitor and jenkins (a
missing key raises KeyError), and finally the first configured server
(raising IndexError when none is configured).  A raised error carries the
missing dict key or the text IndexError. -/
def assignTool (servers : List Str) (name : Str) : Except Str Str :=
  let tool_name := pyToLower name
  match servers.find? (fun sid => (dashToUnderscore sid ++ ['_']).isPrefixOf tool_name) with
  | some sid => Except.ok sid
  | Option.none =>
      if CLUSTER_KEYWORDS.any (fun kw => containsSub kw tool_name) then
        if ("cluster-monitor".toList) ∈ servers then Except.ok ("cluster-monitor".toList)
        else Except.error ("cluster-monitor".toList)
      else if JENKINS_KEYWORDS.any (fun kw => containsSub kw tool_name) then
        if ("jenkins".toList) ∈ servers then Except.ok ("jenkins".toList)
        else Except.error ("jenkins".toList)
      else
        match servers with
        | [] => Except.error ("IndexError".toList)
        | s :: _ => Except.ok s

/-- Embeds the grouping loop of load_mcp_tools: on success every
configured server id maps to the tools assigned to it, in discovery
order; an exception raised for any tool aborts the whole call. -/
def load_mcp_tools_grouping (servers : List Str) (toolNames : List Str) :
    Except Str (List (Str × List Str)) :=
  match toolNames.mapM (assignTool servers) with
  | Except.error e => Except.error e
  | Except.ok _ =>
      Except.ok (servers.map fun sid =>
        (sid, toolNames.filter fun t =>
          match assignTool servers t with
          | Except.ok s => decide (s = sid)
          | Except.error _ => false))

/-- The first literal marker of the expected response format. -/
def SUMMARY_MARKER : Str := "SUMMARY:".toList

/-- The second literal marker of the expected response format. -/
def DETAILED_MARKER : Str := "DETAILED ANALYSIS:".toList

/-- Embeds the response-parsing step shared by
JenkinsAnalysisAgent.analyze_logs (src/agent.py lines 146 to 158) and
_parse_response_node (src/agents/analysis_agent.py lines 126 to 140): the
returned pair is the summary and the analysis. -/
def parse_llm_response (full_analysis : Str) : Str × Str :=
  if containsSub SUMMARY_MARKER full_analysis then
    let parts := pysplit1 DETAILED_MARKER full_analysis
    let summary_part := pyStrip (replaceAll SUMMARY_MARKER [] parts.1)
    let analysis_part :=
      match parts.2 with
      | some a => pyStrip a
      | Option.none => []
    (summary_part, analysis_part)
  else
    (full_analysis.take 500 ++ ("...".toList), full_analysis)

/-- The truncation bound max_log_length of create_analysis_prompt. -/
def max_log_length : Nat := 8000

/-- The joiner inserted between the two retained halves of an over-long
log. -/
def TRUNCATION_JOINER : Str := "\n\n... [TRUNCATED] ...\n\n".toList

/-- The log truncation step shared verbatim by create_analysis_prompt in
src/prompt_config.py (lines 21 to 23) and src/agents/prompt_config.py
(lines 34 to 37). -/
def truncate_logs (logs : Str) : Str :=
  if logs.length > max_log_length then
    logs.take (max_log_length / 2) ++ TRUNCATION_JOINER
      ++ logs.drop (logs.length - max_log_length / 2)
  else logs

/-- The opening text of the f-string of create_analysis_prompt in
src/prompt_config.py, up to the interpolated list of analysis types. -/
def PROMPT_HEADER : Str :=
  "Analyze the following Jenkins build logs and provide insights.\n\nANALYSIS TYPES REQUESTED:\n".toList

/-- The text between the interpolated analysis types and the interpolated
logs, shared by both create_analysis_prompt variants. -/
def PROMPT_LOGS_OPEN : Str := "\n\nBUILD LOGS:\n```\n".toList

/-- The text after the interpolated logs in src/prompt_config.py. -/
def PROMPT_FORMAT : Str :=
  "\n```\n\nPlease provide your analysis in the following format:\n\nSUMMARY:\n[Provide a concise 2-3 sentence summary of the build status and key findings]\n\nDETAILED ANALYSIS:\n".toList

/-- The line appended for the Summary analysis type. -/
def OVERALL_STATUS_LINE : Str :=
  "\n1. **Overall Status**: [What happened in this build?]".toList

/-- The line appended for the Error Analysis analysis type. -/
def ERRORS_FOUND_LINE : Str :=
  "\n2. **Errors Found**: [List any errors, failures, or warnings with line numbers if available]".toList

/-- The line appended for the Performance Insights analysis type. -/
def PERFORMANCE_LINE : Str :=
  "\n3. **Performance**: [Analyze build duration, slow steps, resource usage]".toList

/-- The line appended for the Test Results analysis type. -/
def TEST_RESULTS_LINE : Str :=
  "\n4. **Test Results**: [Summarize test execution, passes, failures]".toList

/-- The line appended for the Recommendations analysis type. -/
def RECOMMENDATIONS_LINE : Str :=
  "\n5. **Recommendations**: [Provide actionable recommendations to improve or fix issues]".toList

/-- Embeds create_analysis_prompt of src/prompt_config.py. -/
def create_analysis_prompt (logs : Str) (analysis_types : List Str) : Str :=
  let logs := truncate_logs logs
  let prompt :=
    PROMPT_HEADER
      ++ joinSep (", ".toList) analysis_types
      ++ PROMPT_LOGS_OPEN
      ++ logs
      ++ PROMPT_FORMAT
  let prompt := if ("Summary".toList) ∈ analysis_types then
      prompt ++ OVERALL_STATUS_LINE else prompt
  let prompt := if ("Error Analysis".toList) ∈ analysis_types then
      prompt ++ ERRORS_FOUND_LINE else prompt
  let prompt := if ("Performance Insights".toList) ∈ analysis_types then
      prompt ++ PERFORMANCE_LINE else prompt
  let prompt := if ("Test Results".toList) ∈ analysis_types then
      prompt ++ TEST_RESULTS_LINE else prompt
  let prompt := if ("Recommendations".toList) ∈ analysis_types then
      prompt ++ RECOMMENDATIONS_LINE else prompt
  prompt

/-- The ANALYSIS_TYPE_DESCRIPTIONS table of src/agents/prompt_config.py. -/
def ANALYSIS_TYPE_DESCRIPTIONS : List (Str × Str) :=
  [(("Summary".toList), ("overall build status and key outcomes".toList)),
   (("Error Analysis".toList), ("errors, failures, warnings, and stack traces".toList)),
   (("Performance Insights".toList), ("build duration, slow steps, and resource usage".toList)),
   (("Test Results".toList), ("test execution results, passes, failures, and flaky tests".toList)),
   (("Recommendations".toList), ("actionable recommendations to fix issues or improve the build".toList))]

/-- The opening text of the f-string of create_analysis_prompt in
src/agents/prompt_config.py. -/
def AGENTS_PROMPT_HEADER : Str :=
  "Analyze the following Jenkins build logs focusing on these aspects:\n\n".toList

/-- The text after the interpolated logs in src/agents/prompt_config.py. -/
def AGENTS_PROMPT_FORMAT : Str :=
  "\n```\n\nProvide your analysis in this format:\n\nSUMMARY:\n[2-3 sentence concise summary]\n\nDETAILED ANALYSIS:\n[Organize your findings by the requested analysis types above. Use clear headings and bullet points.]".toList

/-- Embeds create_analysis_prompt of src/agents/prompt_config.py. -/
def create_analysis_prompt_agents (logs : Str) (analysis_types : List Str) : Str :=
  let logs := truncate_logs logs
  let analysis_items := analysis_types.filterMap fun t =>
    match assocLookup ANALYSIS_TYPE_DESCRIPTIONS t with
    | some d => some (("- ".toList) ++ t ++ ((": ".toList) ++ d))
    | Option.none => Option.none
  let analyses_text :=
    if analysis_items.isEmpty then ("- Complete analysis of all aspects".toList)
    else joinSep ("\n".toList) analysis_items
  AGENTS_PROMPT_HEADER
    ++ analyses_text
    ++ PROMPT_LOGS_OPEN
    ++ logs
    ++ AGENTS_PROMPT_FORMAT

/-- Any error normalize_mcp_content returns is the TypeError of the
unguarded json.dumps call in its multi-text branch. -/
theorem normalize_mcp_content_error (v : PyVal) (e : PyExc)
    (h : normalize_mcp_content v = Except.error e) : e = jsonNotSerializableExc := by
  unfold normalize_mcp_content at h
  repeat' split at h
  all_goals simp_all

/-- The shape of wrapException on a non-interrupt exception. -/
theorem wrapException_not_interrupt (request : ToolRequest) (e : PyExc)
    (hkind : e.kind ∉ INTERRUPT_EXCEPTION_NAMES)
    (hinst : e.interruptInstance = false) :
    wrapException request e
      = (Except.ok
           { content := PyVal.str (error_message_for
               (request.tool_call.name.getD ("unknown".toList)) e.kind e.msg),
             tool_call_id := request.tool_call.id },
         [error_message_for (request.tool_call.name.getD ("unknown".toList)) e.kind e.msg]) := by
  simp [wrapException, hkind, hinst]

/-- C1: for every tool call request carrying a tool name and every raised
condition that is not of an interrupt kind, handle_tool_errors returns
(rather than raises) a ToolMessage addressed to the original call id whose
content is exactly the string ERROR in tool quoted-name, then the
condition kind, then the message; and every outcome that raises only
non-interrupt conditions produces a returned message, never an unhandled
failure. -/
theorem C1_tool_error_reply (request : ToolRequest) (e : PyExc) (n : Str)
    (hname : request.tool_call.name = some n)
    (hkind : e.kind ∉ INTERRUPT_EXCEPTION_NAMES)
    (hinst : e.interruptInstance = false) :
    handle_tool_errors request (Except.error e)
      = (Except.ok { content := PyVal.str (error_message_for n e.kind e.msg),
                     tool_call_id := request.tool_call.id },
         [error_message_for n e.kind e.msg])
    ∧ ∀ outcome : Except PyExc ToolMsg,
        (∀ e2, outcome = Except.error e2 →
          e2.kind ∉ INTERRUPT_EXCEPTION_NAMES ∧ e2.interruptInstance = false) →
        ∃ m logs, handle_tool_errors request outcome = (Except.ok m, logs) := by
  constructor
  · show wrapException request e = _
    rw [wrapException_not_interrupt request e hkind hinst, hname]
    rfl
  · intro outcome hout
    have hwrap : ∀ e2 : PyExc, e2.kind ∉ INTERRUPT_EXCEPTION_NAMES →
        e2.interruptInstance = false →
        ∃ m logs, wrapException request e2 = (Except.ok m, logs) :=
      fun e2 h1 h2 => ⟨_, _, wrapException_not_interrupt request e2 h1 h2⟩
    match outcome with
    | Except.error e2 =>
        obtain ⟨h1, h2⟩ := hout e2 rfl
        exact hwrap e2 h1 h2
    | Except.ok result =>
        obtain ⟨content, tcid⟩ := result
        cases content with
        | list items =>
            cases hn : normalize_mcp_content (.list items) with
            | ok c =>
                exact ⟨{ content := c, tool_call_id := tcid }, [],
                  by simp only [handle_tool_errors]; rw [hn]⟩
            | error e2 =>
                have he2 := normalize_mcp_content_error _ _ hn
                subst he2
                obtain ⟨m, logs, hm⟩ := hwrap jsonNotSerializableExc (by decide) rfl
                exact ⟨m, logs, by simp only [handle_tool_errors]; rw [hn]; exact hm⟩
        | str s => exact ⟨_, _, rfl⟩
        | int k => exact ⟨_, _, rfl⟩
        | bool b => exact ⟨_, _, rfl⟩
        | none => exact ⟨_, _, rfl⟩
        | dict es => exact ⟨_, _, rfl⟩
        | obj t => exact ⟨_, _, rfl⟩

/-- Witness for C1 at a concrete request and ValueError. -/
theorem C1_witness :
    handle_tool_errors
        { tool_call := { id := ("call-1".toList), name := some ("start_job".toList) } }
        (Except.error { kind := ("ValueError".toList), msg := ("bad argument".toList),
                        interruptInstance := false })
      = (Except.ok { content := PyVal.str (error_message_for ("start_job".toList)
                        ("ValueError".toList) ("bad argument".toList)),
                     tool_call_id := ("call-1".toList) },
         [error_message_for ("start_job".toList) ("ValueError".toList) ("bad argument".toList)]) :=
  (C1_tool_error_reply _ _ _ rfl (by decide) rfl).1

/-- C2: every raised condition whose type name is in the interrupt set, or
that is an instance of the Interrupt type, is re-raised unchanged by
handle_tool_errors: not wrapped, not converted to an error message, and
not logged (the log component stays empty). -/
theorem C2_interrupt_propagation (request : ToolRequest) (e : PyExc)
    (h : e.kind ∈ INTERRUPT_EXCEPTION_NAMES ∨ e.interruptInstance = true) :
    handle_tool_errors request (Except.error e) = (Except.error e, []) := by
  show wrapException request e = _
  unfold wrapException
  rcases h with h | h
  · simp [h]
  · by_cases hk : e.kind ∈ INTERRUPT_EXCEPTION_NAMES <;> simp [hk, h]

/-- Witness for C2 at a concrete GraphInterrupt. -/
theorem C2_witness :
    handle_tool_errors { tool_call := { id := ("call-2".toList), name := Option.none } }
        (Except.error { kind := ("GraphInterrupt".toList), msg := ("pause".toList),
                        interruptInstance := true })
      = (Except.error { kind := ("GraphInterrupt".toList), msg := ("pause".toList),
                        interruptInstance := true }, []) :=
  C2_interrupt_propagation _ _ (Or.inl (by decide))

/-- C6: the Config dataclass namespace holds no attribute named
get_approval_tools, so the step of SupervisorAgent._init_agent that
evaluates self.config.get_approval_tools() raises AttributeError for every
Config value; the supervisor agent can never be constructed. -/
theorem C6_supervisor_never_constructs :
    configGetAttr ("get_approval_tools".toList) = Except.error ("AttributeError".toList)
    ∧ ∀ c : Config, supervisor_init_agent c = Except.error ("AttributeError".toList) :=
  ⟨rfl, fun _ => rfl⟩

/-- Lookup in the built interrupt configuration is lookup in the approval
table with the two dict.get defaults applied. -/
theorem assocLookup_build_interrupt (tbl : List (Str × ApprovalToolDict)) (n : Str) :
    assocLookup (build_interrupt_on_config tbl) n
      = (assocLookup tbl n).map (fun cfg =>
          { allowed_decisions := cfg.allowed_decisions.getD [("approve".toList), ("reject".toList)],
            description := cfg.description.getD (n ++ (" requires approval".toList)) }) := by
  induction tbl with
  | nil => rfl
  | cons p rest ih =>
      obtain ⟨k, cfg⟩ := p
      by_cases hk : k = n
      · subst hk
        simp [build_interrupt_on_config, assocLookup]
      · simpa [build_interrupt_on_config, assocLookup, hk] using ih

/-- C4: a tool name present in the approval table with a configured
decision set and description appears in the built interrupt configuration
with exactly that decision set and description; a tool name absent from
the table has no entry in any human-in-the-loop gate of the sub-agent
middleware stack, so it never triggers an interrupt. -/
theorem C4_approval_gate (tbl : List (Str × ApprovalToolDict)) (name : Str)
    (cfg : ApprovalToolDict) (ds : List Str) (d : Str)
    (h1 : assocLookup tbl name = some cfg)
    (h2 : cfg.allowed_decisions = some ds)
    (h3 : cfg.description = some d) :
    assocLookup (build_interrupt_on_config tbl) name
      = some { allowed_decisions := ds, description := d }
    ∧ ∀ n2, assocLookup tbl n2 = Option.none →
        ∀ mw ∈ create_subagent_middleware tbl, ∀ icfg,
          mw = SubagentMiddleware.humanInTheLoop icfg →
            assocLookup icfg n2 = Option.none := by
  constructor
  · rw [assocLookup_build_interrupt, h1]
    simp [h2, h3]
  · intro n2 hn mw hmw icfg hic
    subst hic
    unfold create_subagent_middleware at hmw
    rcases List.mem_append.1 hmw with hmem | hmem
    · split at hmem
      · simp at hmem
      · simp only [List.mem_singleton] at hmem
        injection hmem with hmem
        subst hmem
        rw [assocLookup_build_interrupt, hn]
        rfl
    · simp at hmem

/-- Witness for C4 at a one-entry approval table. -/
theorem C4_witness :
    assocLookup
        (build_interrupt_on_config
          [(("start_job".toList),
            { allowed_decisions := some [("approve".toList), ("reject".toList), ("edit".toList)],
              description := some ("Starting a Jenkins job".toList) })])
        ("start_job".toList)
      = some { allowed_decisions := [("approve".toList), ("reject".toList), ("edit".toList)],
               description := ("Starting a Jenkins job".toList) } :=
  (C4_approval_gate
      [(("start_job".toList),
        { allowed_decisions := some [("approve".toList), ("reject".toList), ("edit".toList)],
          description := some ("Starting a Jenkins job".toList) })]
      ("start_job".toList)
      { allowed_decisions := some [("approve".toList), ("reject".toList), ("edit".toList)],
        description := some ("Starting a Jenkins job".toList) }
      [("approve".toList), ("reject".toList), ("edit".toList)]
      ("Starting a Jenkins job".toList) rfl rfl rfl).1

/-- Appending under a conditional pushed to the right operand. -/
theorem append_if_push (c : Prop) [Decidable c] (p x : Str) :
    (if c then p ++ x else p) = p ++ (if c then x else []) := by
  split <;> simp

/-- C10: the truncation joiner carries the TRUNCATED marker; a log longer
than 8000 characters is embedded in both prompt builders as its first 4000
characters, the joiner, and its last 4000 characters; a log of at most
8000 characters is embedded unchanged. -/
theorem C10_prompt_truncation (logs : Str) (analysis_types : List Str) :
    containsSub ("[TRUNCATED]".toList) TRUNCATION_JOINER = true
    ∧ (logs.length > 8000 →
        (∃ pre post, create_analysis_prompt logs analysis_types
            = pre ++ (logs.take 4000 ++ TRUNCATION_JOINER
                ++ logs.drop (logs.length - 4000)) ++ post)
        ∧ ∃ pre post, create_analysis_prompt_agents logs analysis_types
            = pre ++ (logs.take 4000 ++ TRUNCATION_JOINER
                ++ logs.drop (logs.length - 4000)) ++ post)
    ∧ (logs.length ≤ 8000 →
        (∃ pre post, create_analysis_prompt logs analysis_types = pre ++ logs ++ post)
        ∧ ∃ pre post, create_analysis_prompt_agents logs analysis_types = pre ++ logs ++ post) := by
  have hbig : logs.length > 8000 →
      truncate_logs logs
        = logs.take 4000 ++ TRUNCATION_JOINER ++ logs.drop (logs.length - 4000) := by
    intro h
    unfold truncate_logs max_log_length
    rw [if_pos h]
  have hsmall : logs.length ≤ 8000 → truncate_logs logs = logs := by
    intro h
    unfold truncate_logs max_log_length
    rw [if_neg (by omega)]
  refine ⟨by decide, ?_, ?_⟩
  · intro h
    constructor
    · exact ⟨PROMPT_HEADER ++ joinSep (", ".toList) analysis_types ++ PROMPT_LOGS_OPEN,
        PROMPT_FORMAT
          ++ ((if ("Summary".toList) ∈ analysis_types then OVERALL_STATUS_LINE else [])
          ++ ((if ("Error Analysis".toList) ∈ analysis_types then ERRORS_FOUND_LINE else [])
          ++ ((if ("Performance Insights".toList) ∈ analysis_types then PERFORMANCE_LINE else [])
          ++ ((if ("Test Results".toList) ∈ analysis_types then TEST_RESULTS_LINE else [])
          ++ (if ("Recommendations".toList) ∈ analysis_types then RECOMMENDATIONS_LINE else []))))),
        by simp only [create_analysis_prompt, hbig h]
           split_ifs <;> simp [List.append_assoc]⟩
    · exact ⟨AGENTS_PROMPT_HEADER
          ++ (if (analysis_types.filterMap fun t =>
                match assocLookup ANALYSIS_TYPE_DESCRIPTIONS t with
                | some d => some (("- ".toList) ++ t ++ ((": ".toList) ++ d))
                | Option.none => Option.none).isEmpty
              then ("- Complete analysis of all aspects".toList)
              else joinSep ("\n".toList) (analysis_types.filterMap fun t =>
                match assocLookup ANALYSIS_TYPE_DESCRIPTIONS t with
                | some d => some (("- ".toList) ++ t ++ ((": ".toList) ++ d))
                | Option.none => Option.none))
          ++ PROMPT_LOGS_OPEN,
        AGENTS_PROMPT_FORMAT,
        by simp only [create_analysis_prompt_agents, hbig h, List.append_assoc]⟩
  · intro h
    constructor
    · exact ⟨PROMPT_HEADER ++ joinSep (", ".toList) analysis_types ++ PROMPT_LOGS_OPEN,
        PROMPT_FORMAT
          ++ ((if ("Summary".toList) ∈ analysis_types then OVERALL_STATUS_LINE else [])
          ++ ((if ("Error Analysis".toList) ∈ analysis_types then ERRORS_FOUND_LINE else [])
          ++ ((if ("Performance Insights".toList) ∈ analysis_types then PERFORMANCE_LINE else [])
          ++ ((if ("Test Results".toList) ∈ analysis_types then TEST_RESULTS_LINE else [])
          ++ (if ("Recommendations".toList) ∈ analysis_types then RECOMMENDATIONS_LINE else []))))),
        by simp only [create_analysis_prompt, hsmall h]
           split_ifs <;> simp [List.append_assoc]⟩
    · exact ⟨AGENTS_PROMPT_HEADER
          ++ (if (analysis_types.filterMap fun t =>
                match assocLookup ANALYSIS_TYPE_DESCRIPTIONS t with
                | some d => some (("- ".toList) ++ t ++ ((": ".toList) ++ d))
                | Option.none => Option.none).isEmpty
              then ("- Complete analysis of all aspects".toList)
              else joinSep ("\n".toList) (analysis_types.filterMap fun t =>
                match assocLookup ANALYSIS_TYPE_DESCRIPTIONS t with
                | some d => some (("- ".toList) ++ t ++ ((": ".toList) ++ d))
                | Option.none => Option.none))
          ++ PROMPT_LOGS_OPEN,
        AGENTS_PROMPT_FORMAT,
        by simp only [create_analysis_prompt_agents, hsmall h, List.append_assoc]⟩

/-- Witness for C10: the over-8000 branch at a concrete 8001-character log
and the unchanged branch at a concrete short log. -/
theorem C10_witness :
    ((∃ pre post, create_analysis_prompt (List.replicate 8001 'a') []
        = pre ++ ((List.replicate 8001 'a').take 4000 ++ TRUNCATION_JOINER
            ++ (List.replicate 8001 'a').drop ((List.replicate 8001 'a').length - 4000)) ++ post)
      ∧ ∃ pre post, create_analysis_prompt_agents (List.replicate 8001 'a') []
        = pre ++ ((List.replicate 8001 'a').take 4000 ++ TRUNCATION_JOINER
            ++ (List.replicate 8001 'a').drop ((List.replicate 8001 'a').length - 4000)) ++ post)
    ∧ ((∃ pre post, create_analysis_prompt ("ok".toList) [] = pre ++ ("ok".toList) ++ post)
      ∧ ∃ pre post, create_analysis_prompt_agents ("ok".toList) []
          = pre ++ ("ok".toList) ++ post) :=
  ⟨(C10_prompt_truncation (List.replicate 8001 'a') []).2.1
      (by simp only [List.length_replicate]; omega),
   (C10_prompt_truncation ("ok".toList) []).2.2 (by decide)⟩

/-- With a first item that is not a text record, the normalizer reduces to
the guarded JSON-encoding of the whole list. -/
theorem normalize_mcp_content_first_not_text (first : PyVal) (rest : List PyVal)
    (hfirst : isTextRecord first = false) :
    normalize_mcp_content (.list (first :: rest))
      = match jsonDumps (.list (first :: rest)) with
        | some s => Except.ok (.str s)
        | Option.none => Except.ok (.str (pyStr (.list (first :: rest)))) := by
  unfold normalize_mcp_content
  simp [hfirst]

/-- The JSON rendering of a non-empty list is non-empty. -/
theorem jsonRender_cons_ne_nil (v : PyVal) (vs : List PyVal) (lvl : Nat) :
    jsonRender (.list (v :: vs)) lvl ≠ [] := by
  simp [jsonRender]

/-- The str rendering of a list value is non-empty. -/
theorem pyStr_list_ne_nil (items : List PyVal) : pyStr (.list items) ≠ [] := by
  simp [pyStr, pyRepr]

/-- A list of string values is JSON-serializable. -/
theorem jsonSerializableList_map_str (ss : List Str) :
    jsonSerializableList (ss.map PyVal.str) = true := by
  induction ss with
  | nil => rfl
  | cons s rest ih => simp [jsonSerializableList, jsonSerializable, ih]

/-- When every item is a text record, the extraction keeps one text per
item. -/
theorem mcpTextItems_length (items : List PyVal)
    (hAll : ∀ it ∈ items, isTextRecord it = true) :
    (mcpTextItems items).length = items.length := by
  induction items with
  | nil => rfl
  | cons it rest ih =>
      have h1 := hAll it (by simp)
      have hrest := ih fun x hx => hAll x (by simp [hx])
      cases it with
      | dict entries =>
          simp only [isTextRecord] at h1
          cases hd : dictLookup entries ("text".toList) with
          | none => rw [hd] at h1; simp at h1
          | some v =>
              simp only [mcpTextItems, List.filterMap_cons, hd, List.length_cons]
              simp only [mcpTextItems] at hrest
              omega
      | str s => simp [isTextRecord] at h1
      | int n => simp [isTextRecord] at h1
      | bool b => simp [isTextRecord] at h1
      | none => simp [isTextRecord] at h1
      | list l => simp [isTextRecord] at h1
      | obj t => simp [isTextRecord] at h1

/-- C3: for a non-empty list in which every item is a record exposing a
text field, with string text values collected in original order as ss,
normalize_mcp_content returns the single text value when there is one, and
the JSON-encoded array of the values in that order when there are two or
more. -/
theorem C3_text_record_collection (items : List PyVal) (ss : List Str)
    (hne : items ≠ [])
    (hAll : ∀ it ∈ items, isTextRecord it = true)
    (htexts : mcpTextItems items = ss.map PyVal.str) :
    (∀ s, ss = [s] → normalize_mcp_content (.list items) = Except.ok (.str s))
    ∧ (2 ≤ ss.length →
        normalize_mcp_content (.list items)
          = Except.ok (.str (jsonRender (.list (ss.map PyVal.str)) 0))) := by
  obtain ⟨first, rest, rfl⟩ : ∃ f r, items = f :: r := by
    cases items with
    | nil => exact absurd rfl hne
    | cons f r => exact ⟨f, r, rfl⟩
  have hfirst := hAll first (by simp)
  have hnorm : normalize_mcp_content (.list (first :: rest))
      = match mcpTextItems (first :: rest) with
        | [] => Except.ok (.str (pyStr (.list (first :: rest))))
        | [t] => Except.ok t
        | ts =>
            match jsonDumps (.list ts) with
            | some s => Except.ok (.str s)
            | Option.none => Except.error jsonNotSerializableExc := by
    unfold normalize_mcp_content
    simp [hfirst]
  constructor
  · intro s hs
    subst hs
    rw [hnorm, htexts]
    rfl
  · intro hlen
    match ss, hlen with
    | s1 :: s2 :: tail, _ =>
        rw [hnorm, htexts]
        have h1 : jsonSerializable (.list (PyVal.str s1 :: PyVal.str s2 :: List.map PyVal.str tail)) = true := by
          simp only [jsonSerializable]
          exact jsonSerializableList_map_str (s1 :: s2 :: tail)
        have hser : jsonDumps (.list ((s1 :: s2 :: tail).map PyVal.str))
            = some (jsonRender (.list ((s1 :: s2 :: tail).map PyVal.str)) 0) := by
          simp [jsonDumps, h1]
        change (match jsonDumps (PyVal.list (PyVal.str s1 :: PyVal.str s2 :: List.map PyVal.str tail)) with
                | some s => Except.ok (PyVal.str s)
                | Option.none => Except.error jsonNotSerializableExc)
              = Except.ok (PyVal.str (jsonRender (.list ((s1 :: s2 :: tail).map PyVal.str)) 0))
        rw [show jsonDumps (PyVal.list (PyVal.str s1 :: PyVal.str s2 :: List.map PyVal.str tail))
              = some (jsonRender (.list ((s1 :: s2 :: tail).map PyVal.str)) 0) from hser]

/-- Witness for C3: a single text record and a pair of text records. -/
theorem C3_witness :
    normalize_mcp_content (.list [.dict [(("text".toList), .str ("hi".toList))]])
      = Except.ok (.str ("hi".toList))
    ∧ normalize_mcp_content
        (.list [.dict [(("text".toList), .str ("a".toList))],
                .dict [(("text".toList), .str ("b".toList))]])
      = Except.ok (.str (jsonRender (.list [.str ("a".toList), .str ("b".toList)]) 0)) := by
  constructor
  · exact (C3_text_record_collection [.dict [(("text".toList), .str ("hi".toList))]]
      [("hi".toList)] (by simp)
      (by intro it h
          rcases List.mem_cons.1 h with rfl | h2
          · decide
          · cases h2)
      rfl).1 ("hi".toList) rfl
  · exact (C3_text_record_collection
      [.dict [(("text".toList), .str ("a".toList))], .dict [(("text".toList), .str ("b".toList))]]
      [("a".toList), ("b".toList)] (by simp)
      (by intro it h
          rcases List.mem_cons.1 h with rfl | h2
          · decide
          · rcases List.mem_cons.1 h2 with rfl | h3
            · decide
            · cases h3)
      rfl).2 (by decide)

/-- C7 counterexample: the non-empty list holding the single integer 1 has
no item exposing a text field, yet the normalizer returns the JSON
encoding of the whole input, which differs from the generic string
representation the claim names. -/
theorem C7_counterexample :
    normalize_mcp_content (.list [.int 1]) = Except.ok (.str ("[\n  1\n]".toList))
    ∧ pyStr (.list [.int 1]) = ("[1]".toList)
    ∧ ("[\n  1\n]".toList : Str) ≠ ("[1]".toList) :=
  ⟨rfl, rfl, by decide⟩

/-- C7 amended: for a non-empty list in which no item is a record exposing
a text field, the normalizer returns the JSON encoding of the whole input
when it is JSON-serializable, and the generic string representation of the
input only when the encoding raises. -/
theorem C7_no_text_record_encoding (first : PyVal) (rest : List PyVal)
    (hAll : ∀ it ∈ first :: rest, isTextRecord it = false) :
    (jsonSerializable (.list (first :: rest)) = true →
      normalize_mcp_content (.list (first :: rest))
        = Except.ok (.str (jsonRender (.list (first :: rest)) 0)))
    ∧ (jsonSerializable (.list (first :: rest)) = false →
      normalize_mcp_content (.list (first :: rest))
        = Except.ok (.str (pyStr (.list (first :: rest))))) := by
  have hfirst := hAll first (by simp)
  rw [normalize_mcp_content_first_not_text first rest hfirst]
  constructor
  · intro hser
    rw [show jsonDumps (.list (first :: rest))
          = some (jsonRender (.list (first :: rest)) 0) from by simp [jsonDumps, hser]]
  · intro hser
    rw [show jsonDumps (.list (first :: rest)) = Option.none from by simp [jsonDumps, hser]]

/-- Witness for the amended C7 at a serializable and at a non-serializable
input. -/
theorem C7_witness :
    normalize_mcp_content (.list [.int 1])
      = Except.ok (.str (jsonRender (.list [.int 1]) 0))
    ∧ normalize_mcp_content (.list [.obj ("set".toList)])
      = Except.ok (.str (pyStr (.list [.obj ("set".toList)]))) :=
  ⟨(C7_no_text_record_encoding (.int 1) []
      (by intro it h
          rcases List.mem_cons.1 h with rfl | h2
          · decide
          · cases h2)).1 rfl,
   (C7_no_text_record_encoding (.obj ("set".toList)) []
      (by intro it h
          rcases List.mem_cons.1 h with rfl | h2
          · decide
          · cases h2)).2 rfl⟩

/-- C8: for a non-empty list whose first item does not expose a text
field, the normalizer never raises: it returns the JSON encoding of the
input when serializable, the generic string representation when the
encoding fails, and in every case a returned non-empty string. -/
theorem C8_first_not_text_total (first : PyVal) (rest : List PyVal)
    (hfirst : isTextRecord first = false) :
    (jsonSerializable (.list (first :: rest)) = true →
      normalize_mcp_content (.list (first :: rest))
        = Except.ok (.str (jsonRender (.list (first :: rest)) 0)))
    ∧ (jsonSerializable (.list (first :: rest)) = false →
      normalize_mcp_content (.list (first :: rest))
        = Except.ok (.str (pyStr (.list (first :: rest)))))
    ∧ ∃ s, normalize_mcp_content (.list (first :: rest)) = Except.ok (.str s)
        ∧ s ≠ [] := by
  rw [normalize_mcp_content_first_not_text first rest hfirst]
  refine ⟨?_, ?_, ?_⟩
  · intro hser
    rw [show jsonDumps (.list (first :: rest))
          = some (jsonRender (.list (first :: rest)) 0) from by simp [jsonDumps, hser]]
  · intro hser
    rw [show jsonDumps (.list (first :: rest)) = Option.none from by simp [jsonDumps, hser]]
  · cases hser : jsonSerializable (.list (first :: rest)) with
    | true =>
        refine ⟨jsonRender (.list (first :: rest)) 0, ?_, jsonRender_cons_ne_nil first rest 0⟩
        rw [show jsonDumps (.list (first :: rest))
              = some (jsonRender (.list (first :: rest)) 0) from by simp [jsonDumps, hser]]
    | false =>
        refine ⟨pyStr (.list (first :: rest)), ?_, pyStr_list_ne_nil (first :: rest)⟩
        rw [show jsonDumps (.list (first :: rest)) = Option.none from by simp [jsonDumps, hser]]

/-- Witness for C8 at a list headed by a plain integer and at one headed
by a non-serializable object. -/
theorem C8_witness :
    normalize_mcp_content (.list [.int 1, .str ("x".toList)])
      = Except.ok (.str (jsonRender (.list [.int 1, .str ("x".toList)]) 0))
    ∧ normalize_mcp_content (.list [.obj ("object".toList), .int 2])
      = Except.ok (.str (pyStr (.list [.obj ("object".toList), .int 2]))) :=
  ⟨(C8_first_not_text_total (.int 1) [.str ("x".toList)] rfl).1 rfl,
   (C8_first_not_text_total (.obj ("object".toList)) [.int 2] rfl).2.1 rfl⟩

/-- A string headed by the pattern contains it. -/
theorem containsSub_of_isPrefixOf (pat s : Str) (h : pat.isPrefixOf s = true) :
    containsSub pat s = true := by
  cases s with
  | nil =>
      cases pat with
      | nil => rfl
      | cons p ps => simp [List.isPrefixOf] at h
  | cons c rest => simp [containsSub, h]

/-- Splitting once at the separator when the string is the concatenation of
a prefix free of the separator, the separator, and a suffix. -/
theorem pysplit1_append (sep pre suf : Str) (hsep : sep ≠ [])
    (h : ∀ i < pre.length, sep.isPrefixOf ((pre ++ sep ++ suf).drop i) = false) :
    pysplit1 sep (pre ++ sep ++ suf) = (pre, some suf) := by
  induction pre with
  | nil =>
      cases sep with
      | nil => exact absurd rfl hsep
      | cons q qs =>
          show pysplit1 (q :: qs) (q :: (qs ++ suf)) = ([], some suf)
          have hp : (q :: qs).isPrefixOf (q :: (qs ++ suf)) = true := by
            rw [List.isPrefixOf_iff_prefix]
            exact ⟨suf, by simp⟩
          simp [pysplit1, hp, List.drop_left]
  | cons c pre ih =>
      have h0 := h 0 (by simp)
      simp only [List.drop_zero] at h0
      show pysplit1 sep (c :: (pre ++ sep ++ suf)) = (c :: pre, some suf)
      have hc : sep.isPrefixOf (c :: (pre ++ sep ++ suf)) = false := h0
      rw [show pysplit1 sep (c :: (pre ++ sep ++ suf))
            = if sep.isPrefixOf (c :: (pre ++ sep ++ suf)) then
                ([], some ((c :: (pre ++ sep ++ suf)).drop sep.length))
              else
                ((pysplit1 sep (pre ++ sep ++ suf)).1.cons c,
                 (pysplit1 sep (pre ++ sep ++ suf)).2) from rfl]
      rw [if_neg (by rw [hc]; exact Bool.false_ne_true)]
      rw [ih fun i hi => by
        have := h (i + 1) (by simp only [List.length_cons]; omega)
        simpa using this]

/-- Scanning a string with no occurrence of the pattern changes nothing,
for every amount of fuel. -/
theorem replaceAllAux_no_match (pat rep : Str) (fuel : Nat) (s : Str)
    (h : ∀ i < s.length, pat.isPrefixOf (s.drop i) = false) :
    replaceAllAux pat rep fuel s = s := by
  induction fuel generalizing s with
  | zero => cases s <;> rfl
  | succ n ih =>
      cases s with
      | nil => rfl
      | cons c rest =>
          have h0 := h 0 (by simp)
          simp only [List.drop_zero] at h0
          show (if pat.isPrefixOf (c :: rest) then
                  rep ++ replaceAllAux pat rep n ((c :: rest).drop pat.length)
                else c :: replaceAllAux pat rep n rest) = c :: rest
          rw [if_neg (by rw [h0]; exact Bool.false_ne_true)]
          rw [ih rest fun i hi => by
            have := h (i + 1) (by simp only [List.length_cons]; omega)
            simpa using this]

/-- Replacing a non-empty pattern with nothing in a string that starts with
the pattern and has no further occurrence strips exactly the pattern. -/
theorem replaceAll_strip (pat s : Str) (hp : pat ≠ [])
    (hs : ∀ i < s.length, pat.isPrefixOf (s.drop i) = false) :
    replaceAll pat [] (pat ++ s) = s := by
  cases pat with
  | nil => exact absurd rfl hp
  | cons q qs =>
      show replaceAllAux (q :: qs) [] (q :: (qs ++ s)).length (q :: (qs ++ s)) = s
      have hlen : (q :: (qs ++ s)).length = (qs ++ s).length + 1 := by simp
      rw [hlen]
      have hpre : (q :: qs).isPrefixOf (q :: (qs ++ s)) = true := by
        rw [List.isPrefixOf_iff_prefix]
        exact ⟨s, by simp⟩
      show (if (q :: qs).isPrefixOf (q :: (qs ++ s)) then
              [] ++ replaceAllAux (q :: qs) [] (qs ++ s).length
                ((q :: (qs ++ s)).drop (q :: qs).length)
            else q :: replaceAllAux (q :: qs) [] (qs ++ s).length (qs ++ s)) = s
      rw [if_pos hpre]
      rw [show (q :: (qs ++ s)).drop (q :: qs).length = s by
        simp [List.drop_succ_cons, List.drop_left]]
      rw [List.nil_append]
      exact replaceAllAux_no_match (q :: qs) [] (qs ++ s).length s hs

/-- C9 counterexample: on the text xSUMMARY:yDETAILED ANALYSIS:z the parse
step produces the summary xy, while the text between the two markers,
trimmed, is y; the text before the SUMMARY: marker is kept, so the claim
as stated fails. -/
theorem C9_counterexample :
    (parse_llm_response ("xSUMMARY:yDETAILED ANALYSIS:z".toList)).1 = ("xy".toList)
    ∧ (parse_llm_response ("xSUMMARY:yDETAILED ANALYSIS:z".toList)).1 ≠ ("y".toList)
    ∧ pyStrip ("y".toList) = ("y".toList) :=
  ⟨by decide, by decide, by decide⟩

/-- C9 amended: on a response that is exactly the SUMMARY: marker, a
summary fragment free of both markers, the DETAILED ANALYSIS: marker and
an analysis fragment, the parse step yields the trimmed fragments (the
general behaviour being: all text before the first DETAILED ANALYSIS:
marker with every SUMMARY: occurrence deleted and trimmed, and the text
after that marker trimmed); a response without SUMMARY: yields its first
500 characters plus an ellipsis as summary and the full text as
analysis. -/
theorem C9_response_parsing :
    (∀ s a : Str,
      (∀ i < (SUMMARY_MARKER ++ s).length,
        DETAILED_MARKER.isPrefixOf
          ((SUMMARY_MARKER ++ s ++ DETAILED_MARKER ++ a).drop i) = false) →
      (∀ i < s.length, SUMMARY_MARKER.isPrefixOf (s.drop i) = false) →
      parse_llm_response (SUMMARY_MARKER ++ s ++ DETAILED_MARKER ++ a)
        = (pyStrip s, pyStrip a))
    ∧ ∀ text : Str, containsSub SUMMARY_MARKER text = false →
        parse_llm_response text = (text.take 500 ++ ("...".toList), text) := by
  constructor
  · intro s a h1 h2
    have hcontains : containsSub SUMMARY_MARKER
        (SUMMARY_MARKER ++ s ++ DETAILED_MARKER ++ a) = true := by
      apply containsSub_of_isPrefixOf
      rw [List.isPrefixOf_iff_prefix]
      exact ⟨s ++ DETAILED_MARKER ++ a, by simp⟩
    have hsplit := pysplit1_append DETAILED_MARKER (SUMMARY_MARKER ++ s) a (by decide)
      (by simpa using h1)
    simp only [parse_llm_response, hcontains, if_true]
    rw [show (SUMMARY_MARKER ++ s) ++ DETAILED_MARKER ++ a
          = SUMMARY_MARKER ++ s ++ DETAILED_MARKER ++ a from rfl] at hsplit
    rw [hsplit]
    have hstrip := replaceAll_strip SUMMARY_MARKER s (by decide) h2
    simp only [hstrip]
  · intro text hfalse
    simp [parse_llm_response, hfalse]

/-- Witness for the amended C9 at a well-formed response and at a response
without markers. -/
theorem C9_witness :
    parse_llm_response (SUMMARY_MARKER ++ (" ok ".toList) ++ DETAILED_MARKER ++ (" fine ".toList))
      = (pyStrip (" ok ".toList), pyStrip (" fine ".toList))
    ∧ parse_llm_response ("plain text".toList)
      = (("plain text".toList).take 500 ++ ("...".toList), ("plain text".toList)) :=
  ⟨C9_response_parsing.1 (" ok ".toList) (" fine ".toList) (by decide) (by decide),
   C9_response_parsing.2 ("plain text".toList) (by decide)⟩

/-- In a list without duplicates, a present element is counted exactly
once. -/
theorem countP_eq_one_of_nodup_mem {α : Type} [DecidableEq α] (l : List α) (a : α)
    (hnd : l.Nodup) (ha : a ∈ l) : (l.countP fun x => decide (x = a)) = 1 := by
  induction l with
  | nil => cases ha
  | cons b rest ih =>
      rw [List.countP_cons]
      rcases List.mem_cons.1 ha with rfl | hmem
      · have hnotin : a ∉ rest := (List.nodup_cons.1 hnd).1
        have hzero : rest.countP (fun x => decide (x = a)) = 0 := by
          rw [List.countP_eq_zero]
          intro x hx
          simp only [decide_eq_true_eq]
          exact fun hxa => hnotin (hxa ▸ hx)
        simp [hzero]
      · have hba : ¬(b = a) := fun h => (List.nodup_cons.1 hnd).1 (h ▸ hmem)
        have hone := ih (List.nodup_cons.1 hnd).2 hmem
        simp [hone, hba]

/-- When the configuration declares both keyword target groups, the
assignment step always succeeds and picks a configured server. -/
theorem assignTool_mem (servers : List Str) (t : Str)
    (hne : servers ≠ [])
    (hcm : ("cluster-monitor".toList) ∈ servers)
    (hj : ("jenkins".toList) ∈ servers) :
    ∃ sid, assignTool servers t = Except.ok sid ∧ sid ∈ servers := by
  simp only [assignTool]
  cases hf : servers.find?
      (fun sid => (dashToUnderscore sid ++ ['_']).isPrefixOf (pyToLower t)) with
  | some sid =>
      exact ⟨sid, rfl, List.mem_of_find?_eq_some hf⟩
  | none =>
      by_cases h1 : (CLUSTER_KEYWORDS.any fun kw => containsSub kw (pyToLower t)) = true
      · rw [if_pos h1, if_pos hcm]
        exact ⟨_, rfl, hcm⟩
      · rw [if_neg h1]
        by_cases h2 : (JENKINS_KEYWORDS.any fun kw => containsSub kw (pyToLower t)) = true
        · rw [if_pos h2, if_pos hj]
          exact ⟨_, rfl, hj⟩
        · rw [if_neg h2]
          cases servers with
          | nil => exact absurd rfl hne
          | cons s rest => exact ⟨s, rfl, by simp⟩

/-- C5 counterexample: with the single configured group other and the
discovered tool clusterinfo, the keyword branch indexes the missing dict
key cluster-monitor and the whole call raises KeyError, so the tool
appears in no output group at all. -/
theorem C5_counterexample :
    load_mcp_tools_grouping [("other".toList)] [("clusterinfo".toList)]
      = Except.error ("cluster-monitor".toList) := rfl

/-- C5 amended: when the configured groups are non-empty, distinct, and
include the two keyword targets cluster-monitor and jenkins, the router
returns a grouping keyed by the configured groups in order, in which every
discovered tool appears in exactly one group and none is dropped. -/
theorem C5_router_grouping (servers : List Str) (toolNames : List Str)
    (hne : servers ≠ []) (hnd : servers.Nodup)
    (hcm : ("cluster-monitor".toList) ∈ servers)
    (hj : ("jenkins".toList) ∈ servers) :
    ∃ g, load_mcp_tools_grouping servers toolNames = Except.ok g
      ∧ g.map Prod.fst = servers
      ∧ ∀ t ∈ toolNames, (g.countP fun p => decide (t ∈ p.2)) = 1 := by
  have hassign : ∀ t, ∃ sid, assignTool servers t = Except.ok sid ∧ sid ∈ servers :=
    fun t => assignTool_mem servers t hne hcm hj
  have hmapm : ∃ l, toolNames.mapM (assignTool servers) = Except.ok l := by
    induction toolNames with
    | nil => exact ⟨[], rfl⟩
    | cons t rest ih =>
        obtain ⟨sid, hsid, _⟩ := hassign t
        obtain ⟨l, hl⟩ := ih
        refine ⟨sid :: l, ?_⟩
        rw [List.mapM_cons, hsid, hl]
        rfl
  obtain ⟨l, hl⟩ := hmapm
  refine ⟨servers.map (fun sid =>
      (sid, toolNames.filter fun t =>
        match assignTool servers t with
        | Except.ok s => decide (s = sid)
        | Except.error _ => false)), ?_, ?_, ?_⟩
  · simp only [load_mcp_tools_grouping]
    rw [hl]
  · rw [List.map_map]
    exact List.map_id servers
  · intro t ht
    obtain ⟨a, ha, hamem⟩ := hassign t
    rw [List.countP_map]
    have hpt : ∀ sid : Str,
        (decide (t ∈ toolNames.filter fun t2 =>
          match assignTool servers t2 with
          | Except.ok s => decide (s = sid)
          | Except.error _ => false) : Bool)
        = decide (sid = a) := by
      intro sid
      by_cases hsa : sid = a
      · subst hsa
        simp [List.mem_filter, ht, ha]
      · have hsa2 : ¬(a = sid) := fun h => hsa h.symm
        simp [List.mem_filter, ht, ha, hsa, hsa2]
    have hfun : ((fun p => decide (t ∈ p.2)) ∘ fun sid =>
        (sid, toolNames.filter fun t2 =>
          match assignTool servers t2 with
          | Except.ok s => decide (s = sid)
          | Except.error _ => false))
        = fun sid => decide (sid = a) := funext fun sid => hpt sid
    rw [hfun]
    exact countP_eq_one_of_nodup_mem servers a hnd hamem

/-- Witness for the amended C5 at a two-group configuration and three
discovered tools (one prefix-matched, one keyword-matched, one routed to
the fallback group). -/
theorem C5_witness :
    ∃ g, load_mcp_tools_grouping [("cluster-monitor".toList), ("jenkins".toList)]
          [("jenkins_start".toList), ("hivemind".toList), ("misc".toList)] = Except.ok g
      ∧ g.map Prod.fst = [("cluster-monitor".toList), ("jenkins".toList)]
      ∧ ∀ t ∈ [("jenkins_start".toList), ("hivemind".toList), ("misc".toList)],
          (g.countP fun p => decide (t ∈ p.2)) = 1 :=
  C5_router_grouping [("cluster-monitor".toList), ("jenkins".toList)]
    [("jenkins_start".toList), ("hivemind".toList), ("misc".toList)]
    (by decide) (by decide) (by decide) (by decide)
